import Mathlib

/-!
Verification of the mode registry and tool-permission resolution engine of
`src/shared/modes.ts`: the data model for modes and tool groups, the built-in
mode catalog, the registry lookup and merge operations, and the permission
resolver `isToolAllowedForMode` together with its per-file path restriction.

Free-text prompt fields of a mode (role definition, custom instructions) are
not modelled: no registry or permission operation reads them, and the
specification scopes prompt text out as templating glue.
-/

/-- Options attached to a group entry: an optional file-path pattern and an
optional human-readable label, mirroring the `GroupOptions` shape
`\x7b fileRegex?: string; description?: string \x7d`. -/
structure GroupOptions where
  fileRegex : Option String
  description : Option String
deriving DecidableEq, Repr

/-- A group entry of a mode: either a bare group name (a string in the
source) or a pair of a group name and options (an array in the source). -/
inductive GroupEntry where
  | simple (groupName : String)
  | scoped (groupName : String) (opts : GroupOptions)
deriving DecidableEq, Repr

/-- Extracts the group name regardless of the entry format, mirroring
`getGroupName`. -/
def getGroupName : GroupEntry → String
  | GroupEntry.simple g => g
  | GroupEntry.scoped g _ => g

/-- Returns the group options if they exist, mirroring `getGroupOptions`. -/
def getGroupOptions : GroupEntry → Option GroupOptions
  | GroupEntry.simple _ => none
  | GroupEntry.scoped _ o => some o

/-- A mode configuration: slug, display name and the ordered group entries.
The free-text prompt fields are out of scope (see the module comment). -/
structure ModeConfig where
  slug : String
  name : String
  groups : List GroupEntry
deriving DecidableEq, Repr

/-- Modelled from the spec: the tool-group catalog (`TOOL_GROUPS`), the
always-available tool list (`ALWAYS_AVAILABLE_TOOLS`) and the recognized
experimental-feature identifiers (`EXPERIMENT_IDS`) are imported by the
source from `./tools` and `./experiments`, which are absent from the
repository snapshot. They are therefore kept as an explicit parameter of the
permission resolver: a mapping from group id to the tool names it grants, a
fixed list of tools available in every mode, and the list of experimental
tool identifiers. -/
structure ToolCatalog where
  TOOL_GROUPS : String → List String
  ALWAYS_AVAILABLE_TOOLS : List String
  EXPERIMENT_IDS : List String

/-- Modelled from the spec: a concrete tool catalog for evaluating the
resolver on the built-in modes. Group contents follow the tool names the
spec and the mode texts use (read, edit, browser, command, mcp, review);
the always-available set follows the examples the spec gives. The spec
names no concrete experimental identifier, so that list is empty here;
claims about experimental gating are settled over an arbitrary catalog. -/
def specCatalog : ToolCatalog where
  TOOL_GROUPS := fun g =>
    if g == "read" then ["read_file", "list_files", "search_files", "list_code_definition_names"]
    else if g == "edit" then ["apply_diff", "write_to_file", "insert_content", "search_and_replace"]
    else if g == "browser" then ["browser_action"]
    else if g == "command" then ["execute_command"]
    else if g == "mcp" then ["use_mcp_tool", "access_mcp_resource"]
    else if g == "review" then ["reviewer"]
    else []
  ALWAYS_AVAILABLE_TOOLS := ["ask_followup_question", "attempt_completion", "switch_mode", "new_task"]
  EXPERIMENT_IDS := []

/-! The built-in mode catalog, transcribed from the `modes` constant. -/

/-- Built-in mode `code`. -/
def codeMode : ModeConfig where
  slug := "code"
  name := "ðŸ’» Code"
  groups := [GroupEntry.simple "read", GroupEntry.simple "edit", GroupEntry.simple "browser",
    GroupEntry.simple "command", GroupEntry.simple "mcp", GroupEntry.simple "review"]

/-- Built-in mode `architect`: the edit group is scoped to Markdown files. -/
def architectMode : ModeConfig where
  slug := "architect"
  name := "ðŸ—ï¸ Architect"
  groups := [GroupEntry.simple "read",
    GroupEntry.scoped "edit" ⟨some "\\.md$", some "Markdown files only"⟩,
    GroupEntry.simple "browser", GroupEntry.simple "command", GroupEntry.simple "mcp",
    GroupEntry.simple "review"]

/-- Built-in mode `ask`. -/
def askMode : ModeConfig where
  slug := "ask"
  name := "â“ Ask"
  groups := [GroupEntry.simple "read", GroupEntry.simple "browser", GroupEntry.simple "mcp"]

/-- Built-in mode `debug`. -/
def debugMode : ModeConfig where
  slug := "debug"
  name := "ðŸª² Debug"
  groups := [GroupEntry.simple "read", GroupEntry.simple "edit", GroupEntry.simple "browser",
    GroupEntry.simple "command", GroupEntry.simple "mcp"]

/-- Built-in mode `reviewer`: the edit group is scoped to review-response
files. -/
def reviewerMode : ModeConfig where
  slug := "reviewer"
  name := "ðŸ§ Reviewer"
  groups := [GroupEntry.simple "read",
    GroupEntry.scoped "edit" ⟨some "\\.agent/review_response_.*\\.md$", some "Review response files only"⟩,
    GroupEntry.simple "browser", GroupEntry.simple "command", GroupEntry.simple "mcp",
    GroupEntry.simple "review"]

/-- Built-in mode `orchestrator`: no tool groups. -/
def orchestratorMode : ModeConfig where
  slug := "orchestrator"
  name := "ðŸªƒ Orchestrator"
  groups := []

/-- The ordered built-in mode sequence, mirroring the `modes` constant. -/
def modes : List ModeConfig :=
  [codeMode, architectMode, askMode, debugMode, reviewerMode, orchestratorMode]

/-! A small regular-expression engine modelling ECMAScript `RegExp`
construction and `test` for the pattern fragment the built-in modes use:
literal characters, backslash escapes, the any-character dot, the star
repetition, and a trailing end anchor. Patterns outside this fragment are
treated as construction failures, as is genuinely malformed syntax such as
an unterminated group. `test` is unanchored at the start: the compiled
sequence may match starting at any position of the subject string. -/

/-- A regex atom: a literal character, the any-character dot, or the star
repetition of an atom. -/
inductive RAtom where
  | lit (c : Char)
  | dot
  | star (base : RAtom)
deriving DecidableEq, Repr

/-- Whether a non-star atom matches one character. -/
def atomMatchesChar : RAtom → Char → Bool
  | RAtom.lit c, x => x == c
  | RAtom.dot, _ => true
  | RAtom.star _, _ => false

/-- Characters that this engine does not accept at the head of an atom.
A leading `*` is a genuine ECMAScript syntax error (nothing to repeat), as
are unmatched `(` and friends in the claims exercised here. -/
def badLeadChar (c : Char) : Bool :=
  c == '(' || c == ')' || c == '[' || c == ']' ||
  c == Char.ofNat 123 || c == Char.ofNat 125 ||
  c == '+' || c == '?' || c == '|' || c == '*' || c == '^'

/-- Wraps a parsed tail with one more leading atom. -/
def consAtom (a : RAtom) : Option (List RAtom × Bool) → Option (List RAtom × Bool)
  | none => none
  | some (as, anch) => some (a :: as, anch)

/-- Parses a pattern into an atom sequence and an end-anchor flag; `none`
models a `RegExp` construction failure. An atom is consumed together with a
star that immediately follows it. -/
def parseAtoms : List Char → Option (List RAtom × Bool)
  | [] => some ([], false)
  | ['$'] => some ([], true)
  | '\\' :: [] => none
  | '\\' :: d :: '*' :: rest => consAtom (RAtom.star (RAtom.lit d)) (parseAtoms rest)
  | '\\' :: d :: rest => consAtom (RAtom.lit d) (parseAtoms rest)
  | '.' :: '*' :: rest => consAtom (RAtom.star RAtom.dot) (parseAtoms rest)
  | '.' :: rest => consAtom RAtom.dot (parseAtoms rest)
  | c :: '*' :: rest =>
    if badLeadChar c || c == '$' then none
    else consAtom (RAtom.star (RAtom.lit c)) (parseAtoms rest)
  | c :: rest =>
    if badLeadChar c || c == '$' then none
    else consAtom (RAtom.lit c) (parseAtoms rest)

/-- Iterates a starred atom: succeeds when the continuation succeeds on the
current suffix or on any suffix reached by consuming characters the starred
atom matches. -/
def starLoop (b : RAtom) (k : List Char → Bool) : List Char → Bool
  | [] => k []
  | x :: xs => k (x :: xs) || (atomMatchesChar b x && starLoop b k xs)

/-- Matches an atom sequence against a character list starting at its head;
when `anchored` the match must consume the whole list. -/
def matchHere : List RAtom → Bool → List Char → Bool
  | [], anchored, s => !anchored || s.isEmpty
  | RAtom.lit _ :: _, _, [] => false
  | RAtom.lit c :: rest, anchored, x :: xs => x == c && matchHere rest anchored xs
  | RAtom.dot :: _, _, [] => false
  | RAtom.dot :: rest, anchored, _ :: xs => matchHere rest anchored xs
  | RAtom.star b :: rest, anchored, s => starLoop b (fun s2 => matchHere rest anchored s2) s

/-- Tries a match starting at every position, as unanchored `test` does. -/
def searchFrom (atoms : List RAtom) (anchored : Bool) : List Char → Bool
  | [] => matchHere atoms anchored []
  | x :: xs => matchHere atoms anchored (x :: xs) || searchFrom atoms anchored xs

/-- Checks whether a file path matches a regex pattern, mirroring
`doesFileMatchRegex`: a pattern whose construction fails is caught and
reported as not matching. -/
def doesFileMatchRegex (filePath : String) (pattern : String) : Bool :=
  match parseAtoms pattern.toList with
  | none => false
  | some (atoms, anchored) => searchFrom atoms anchored filePath.toList

/-! Registry operations. -/

/-- Looks up a mode by slug, custom modes first, mirroring `getModeBySlug`. -/
def getModeBySlug (slug : String) (customModes : Option (List ModeConfig)) : Option ModeConfig :=
  match customModes with
  | some cms =>
    match cms.find? (fun m => m.slug == slug) with
    | some m => some m
    | none => modes.find? (fun m => m.slug == slug)
  | none => modes.find? (fun m => m.slug == slug)

/-- Strict lookup, mirroring `getModeConfig`: the thrown
`No mode found for slug` error is modelled as the error branch. -/
def getModeConfig (slug : String) (customModes : Option (List ModeConfig)) :
    Except String ModeConfig :=
  match getModeBySlug slug customModes with
  | none => Except.error ("No mode found for slug: " ++ slug)
  | some m => Except.ok m

/-- Merges custom modes over the built-ins, mirroring `getAllModes`:
a custom mode whose slug matches an existing entry replaces it in place,
otherwise it is appended. -/
def getAllModes (customModes : Option (List ModeConfig)) : List ModeConfig :=
  match customModes with
  | none => modes
  | some [] => modes
  | some cms =>
    cms.foldl
      (fun allModes customMode =>
        match allModes.findIdx? (fun m => m.slug == customMode.slug) with
        | some i => allModes.set i customMode
        | none => allModes ++ [customMode])
      modes

/-! The permission resolver. -/

/-- Tool-call parameters, narrowed to the four fields the resolver inspects
out of the loosely typed `toolParams` record. -/
structure ToolParams where
  path : Option String
  diff : Option String
  content : Option String
  operations : Option String
deriving DecidableEq, Repr

/-- The `toolRequirements` argument: absent, a literal boolean, or a mapping
from tool name to boolean. -/
inductive ToolRequirements where
  | undef
  | boolVal (b : Bool)
  | map (entries : List (String × Bool))
deriving DecidableEq, Repr

/-- Outcome of a permission check: the boolean results, plus the thrown
`FileRestrictionError` modelled as a value carrying the mode name, the
pattern, the optional description and the offending path. -/
inductive ToolDecision where
  | allowed
  | denied
  | restricted (modeName : String) (pattern : String) (description : Option String)
      (filePath : String)
deriving DecidableEq, Repr

/-- JavaScript string truthiness of an optional string field: present and
non-empty. -/
def strTruthy : Option String → Bool
  | none => false
  | some s => !s.isEmpty

/-- First-entry lookup in a string-keyed boolean mapping. -/
def lookupBool (entries : List (String × Bool)) (key : String) : Option Bool :=
  match entries.find? (fun p => p.1 == key) with
  | some p => some p.2
  | none => none

/-- The experimental-tool gate of the resolver: it denies exactly when the
`experiments` argument is present, the tool is a recognized experimental
identifier, and the entry for the tool is absent or false. -/
def experimentGateDenies (cat : ToolCatalog) (tool : String) :
    Option (List (String × Bool)) → Bool
  | none => false
  | some exps => cat.EXPERIMENT_IDS.contains tool && !((lookupBool exps tool).getD false)

/-- The tool-requirements gate of the resolver: a mapping denies on an
explicit false entry; the literal boolean false denies everything; anything
else does not deny. -/
def requirementDenies (tool : String) : ToolRequirements → Bool
  | ToolRequirements.undef => false
  | ToolRequirements.boolVal b => !b
  | ToolRequirements.map entries => lookupBool entries tool == some false

/-- Decision taken at a group entry whose tool set contains the tool: the
body of the group loop of `isToolAllowedForMode` after the containment
test. -/
def groupEntryDecision (cat : ToolCatalog) (modeName tool : String)
    (toolParams : Option ToolParams) (g : GroupEntry) : ToolDecision :=
  match getGroupOptions g with
  | none => ToolDecision.allowed
  | some opts =>
    if getGroupName g == "edit" && strTruthy opts.fileRegex then
      match toolParams with
      | none => ToolDecision.allowed
      | some tp =>
        if strTruthy tp.path
            && (strTruthy tp.diff || strTruthy tp.content || strTruthy tp.operations)
            && !doesFileMatchRegex (tp.path.getD "") (opts.fileRegex.getD "") then
          ToolDecision.restricted modeName (opts.fileRegex.getD "") opts.description
            (tp.path.getD "")
        else ToolDecision.allowed
    else ToolDecision.allowed

/-- The group loop of `isToolAllowedForMode`: skip entries whose group does
not grant the tool, decide at the first one that does, fall through to a
denial. -/
def resolveGroups (cat : ToolCatalog) (modeName tool : String)
    (toolParams : Option ToolParams) : List GroupEntry → ToolDecision
  | [] => ToolDecision.denied
  | g :: rest =>
    if !((cat.TOOL_GROUPS (getGroupName g)).contains tool) then
      resolveGroups cat modeName tool toolParams rest
    else groupEntryDecision cat modeName tool toolParams g

/-- The permission resolver, mirroring `isToolAllowedForMode` over a tool
catalog parameter (see `ToolCatalog`): always-available tools first, then
the experimental gate, then the tool-requirements gate, then mode lookup
and the group loop. -/
def isToolAllowedForMode (cat : ToolCatalog) (tool modeSlug : String)
    (customModes : List ModeConfig) (toolRequirements : ToolRequirements)
    (toolParams : Option ToolParams) (experiments : Option (List (String × Bool))) :
    ToolDecision :=
  if cat.ALWAYS_AVAILABLE_TOOLS.contains tool then ToolDecision.allowed
  else if experimentGateDenies cat tool experiments then ToolDecision.denied
  else if requirementDenies tool toolRequirements then ToolDecision.denied
  else
    match getModeBySlug modeSlug (some customModes) with
    | none => ToolDecision.denied
    | some mode => resolveGroups cat mode.name tool toolParams mode.groups

/-! Shared lemmas. -/

/-- The group loop decides at the first entry whose tool set contains the
tool: it equals a first-match lookup followed by the per-entry decision. -/
theorem resolveGroups_eq_find (cat : ToolCatalog) (modeName tool : String)
    (tp : Option ToolParams) (gs : List GroupEntry) :
    resolveGroups cat modeName tool tp gs =
      match gs.find? (fun e => (cat.TOOL_GROUPS (getGroupName e)).contains tool) with
      | none => ToolDecision.denied
      | some g => groupEntryDecision cat modeName tool tp g := by
  induction gs with
  | nil => rfl
  | cons g rest ih =>
    cases hc : (cat.TOOL_GROUPS (getGroupName g)).contains tool with
    | false =>
      simp at hc
      simp [resolveGroups, List.find?, hc, ih]
    | true =>
      simp at hc
      simp [resolveGroups, List.find?, hc]

/-! Claim theorems. -/

/-- C1: for mode `architect` (edit group scoped by the pattern matching
Markdown files), a `write_to_file` call on `notes.md` carrying content is
allowed; the same call on `app.ts` carrying content raises the
file-restriction error; and the same call on `app.ts` with no diff, content
or operations field raises nothing and is allowed, being treated as a
non-edit call. -/
theorem c1_architect_edit_path_restriction :
    isToolAllowedForMode specCatalog "write_to_file" "architect" []
        ToolRequirements.undef (some ⟨some "notes.md", none, some "x", none⟩) none =
      ToolDecision.allowed ∧
    isToolAllowedForMode specCatalog "write_to_file" "architect" []
        ToolRequirements.undef (some ⟨some "app.ts", none, some "x", none⟩) none =
      ToolDecision.restricted architectMode.name "\\.md$" (some "Markdown files only") "app.ts" ∧
    isToolAllowedForMode specCatalog "write_to_file" "architect" []
        ToolRequirements.undef (some ⟨some "app.ts", none, none, none⟩) none =
      ToolDecision.allowed :=
  ⟨rfl, rfl, rfl⟩

/-- C4: a tool in the always-available set is allowed for every catalog,
every mode slug (also one resolving to no mode), every custom-mode
sequence, every tool-requirements value including the literal false, every
tool-params value and every experiments mapping. -/
theorem c4_always_available_tools_always_allowed
    (cat : ToolCatalog) (tool modeSlug : String) (customModes : List ModeConfig)
    (toolRequirements : ToolRequirements) (toolParams : Option ToolParams)
    (experiments : Option (List (String × Bool)))
    (h : cat.ALWAYS_AVAILABLE_TOOLS.contains tool = true) :
    isToolAllowedForMode cat tool modeSlug customModes toolRequirements toolParams
      experiments = ToolDecision.allowed := by
  simp at h
  simp [isToolAllowedForMode, h]

/-- C4 witness: `attempt_completion` is allowed even for a nonexistent mode
slug with tool requirements set to the literal false. -/
theorem c4_witness :
    isToolAllowedForMode specCatalog "attempt_completion" "no_such_mode" []
      (ToolRequirements.boolVal false) none none = ToolDecision.allowed :=
  c4_always_available_tools_always_allowed specCatalog "attempt_completion" "no_such_mode"
    [] (ToolRequirements.boolVal false) none none rfl

/-- C5: when `toolRequirements` is the literal boolean false, every tool
outside the always-available set is denied for every mode; when it is a
mapping, a tool with an explicit false entry is denied, and a missing or
true entry leaves the decision identical to the one with no
tool-requirements argument at all. -/
theorem c5_tool_requirements_gate :
    (∀ (cat : ToolCatalog) (tool modeSlug : String) (customModes : List ModeConfig)
        (toolParams : Option ToolParams) (experiments : Option (List (String × Bool))),
      cat.ALWAYS_AVAILABLE_TOOLS.contains tool = false →
      isToolAllowedForMode cat tool modeSlug customModes (ToolRequirements.boolVal false)
        toolParams experiments = ToolDecision.denied) ∧
    (∀ (cat : ToolCatalog) (tool modeSlug : String) (customModes : List ModeConfig)
        (toolParams : Option ToolParams) (experiments : Option (List (String × Bool)))
        (entries : List (String × Bool)),
      cat.ALWAYS_AVAILABLE_TOOLS.contains tool = false →
      lookupBool entries tool = some false →
      isToolAllowedForMode cat tool modeSlug customModes (ToolRequirements.map entries)
        toolParams experiments = ToolDecision.denied) ∧
    (∀ (cat : ToolCatalog) (tool modeSlug : String) (customModes : List ModeConfig)
        (toolParams : Option ToolParams) (experiments : Option (List (String × Bool)))
        (entries : List (String × Bool)),
      lookupBool entries tool = none ∨ lookupBool entries tool = some true →
      isToolAllowedForMode cat tool modeSlug customModes (ToolRequirements.map entries)
        toolParams experiments =
        isToolAllowedForMode cat tool modeSlug customModes ToolRequirements.undef
          toolParams experiments) := by
  refine ⟨?_, ?_, ?_⟩
  · intro cat tool modeSlug customModes toolParams experiments h
    simp at h
    cases hg : experimentGateDenies cat tool experiments <;>
      simp [isToolAllowedForMode, h, hg, requirementDenies]
  · intro cat tool modeSlug customModes toolParams experiments entries h hm
    simp at h
    cases hg : experimentGateDenies cat tool experiments <;>
      simp [isToolAllowedForMode, h, hg, requirementDenies, hm]
  · intro cat tool modeSlug customModes toolParams experiments entries h
    rcases h with h | h <;> simp [isToolAllowedForMode, requirementDenies, h]

/-- C5 witness: with tool requirements set to the literal false,
`write_to_file` is denied in mode `code`. -/
theorem c5_witness :
    isToolAllowedForMode specCatalog "write_to_file" "code" []
      (ToolRequirements.boolVal false) none none = ToolDecision.denied :=
  c5_tool_requirements_gate.1 specCatalog "write_to_file" "code" [] none none rfl

/-- The built-in grant catalog exactly as claim C7 states it, membership
formulated as sets of group entries: code with bare read, edit, command,
browser, mcp; architect with read, Markdown-scoped edit, browser, mcp; ask
with read, browser, mcp; debug with the same grants as code; reviewer with
read, review-response-scoped edit, browser, command, mcp; orchestrator with
none. -/
def claimedBuiltinGrants : Prop :=
  (∀ g : GroupEntry, g ∈ codeMode.groups ↔
    g ∈ ([GroupEntry.simple "read", GroupEntry.simple "edit", GroupEntry.simple "command",
      GroupEntry.simple "browser", GroupEntry.simple "mcp"] : List GroupEntry)) ∧
  (∀ g : GroupEntry, g ∈ architectMode.groups ↔
    g ∈ ([GroupEntry.simple "read",
      GroupEntry.scoped "edit" ⟨some "\\.md$", some "Markdown files only"⟩,
      GroupEntry.simple "browser", GroupEntry.simple "mcp"] : List GroupEntry)) ∧
  (∀ g : GroupEntry, g ∈ askMode.groups ↔
    g ∈ ([GroupEntry.simple "read", GroupEntry.simple "browser",
      GroupEntry.simple "mcp"] : List GroupEntry)) ∧
  (∀ g : GroupEntry, g ∈ debugMode.groups ↔ g ∈ codeMode.groups) ∧
  (∀ g : GroupEntry, g ∈ reviewerMode.groups ↔
    g ∈ ([GroupEntry.simple "read",
      GroupEntry.scoped "edit" ⟨some "\\.agent/review_response_.*\\.md$", some "Review response files only"⟩,
      GroupEntry.simple "browser", GroupEntry.simple "command",
      GroupEntry.simple "mcp"] : List GroupEntry)) ∧
  orchestratorMode.groups = []

/-- C7 counterexample: the built-in catalog does not grant exactly what the
claim states; the code mode grants the review group, which the claimed code
grant set lacks. -/
theorem c7_counterexample : ¬ claimedBuiltinGrants := by
  intro h
  have hmem := (h.1 (GroupEntry.simple "review")).mp (by decide)
  exact absurd hmem (by decide)

/-- C7 amended: the built-in grants as the code declares them. Code grants
read, edit, browser, command, mcp and review; architect grants read,
Markdown-scoped edit, browser, command, mcp and review; ask grants read,
browser and mcp; debug grants exactly the code grants minus the review
group; reviewer grants read, review-response-scoped edit, browser, command,
mcp and review; orchestrator grants no group. -/
theorem c7_amended_builtin_grants :
    codeMode.groups = [GroupEntry.simple "read", GroupEntry.simple "edit",
      GroupEntry.simple "browser", GroupEntry.simple "command", GroupEntry.simple "mcp",
      GroupEntry.simple "review"] ∧
    architectMode.groups = [GroupEntry.simple "read",
      GroupEntry.scoped "edit" ⟨some "\\.md$", some "Markdown files only"⟩,
      GroupEntry.simple "browser", GroupEntry.simple "command", GroupEntry.simple "mcp",
      GroupEntry.simple "review"] ∧
    askMode.groups = [GroupEntry.simple "read", GroupEntry.simple "browser",
      GroupEntry.simple "mcp"] ∧
    debugMode.groups = codeMode.groups.filter (fun g => !(getGroupName g == "review")) ∧
    reviewerMode.groups = [GroupEntry.simple "read",
      GroupEntry.scoped "edit" ⟨some "\\.agent/review_response_.*\\.md$", some "Review response files only"⟩,
      GroupEntry.simple "browser", GroupEntry.simple "command", GroupEntry.simple "mcp",
      GroupEntry.simple "review"] ∧
    orchestratorMode.groups = [] :=
  ⟨rfl, rfl, rfl, by decide, rfl, rfl⟩

/-- C2: once the always-available, experimental and tool-requirements gates
pass and the mode resolves, the resolver is decided by the first group
entry, in declared order, whose tool set contains the tool: the result
equals the per-entry decision of that first match, and is a denial when no
declared entry contains the tool. -/
theorem c2_first_matching_group_entry_decides
    (cat : ToolCatalog) (tool modeSlug : String) (customModes : List ModeConfig)
    (toolRequirements : ToolRequirements) (toolParams : Option ToolParams)
    (experiments : Option (List (String × Bool))) (mode : ModeConfig)
    (hAlways : cat.ALWAYS_AVAILABLE_TOOLS.contains tool = false)
    (hExp : experimentGateDenies cat tool experiments = false)
    (hReq : requirementDenies tool toolRequirements = false)
    (hMode : getModeBySlug modeSlug (some customModes) = some mode) :
    isToolAllowedForMode cat tool modeSlug customModes toolRequirements toolParams
        experiments =
      match mode.groups.find? (fun e => (cat.TOOL_GROUPS (getGroupName e)).contains tool) with
      | none => ToolDecision.denied
      | some g => groupEntryDecision cat mode.name tool toolParams g := by
  simp at hAlways
  simp [isToolAllowedForMode, hAlways, hExp, hReq, hMode, resolveGroups_eq_find]

/-- C2 witness: in mode `ask` no declared group entry contains
`write_to_file`, and the resolver result equals the first-match fall-through
of the claim statement, a denial. -/
theorem c2_witness :
    isToolAllowedForMode specCatalog "write_to_file" "ask" [] ToolRequirements.undef
        none none =
      match askMode.groups.find?
          (fun e => (specCatalog.TOOL_GROUPS (getGroupName e)).contains "write_to_file") with
      | none => ToolDecision.denied
      | some g => groupEntryDecision specCatalog askMode.name "write_to_file" none g :=
  c2_first_matching_group_entry_decides specCatalog "write_to_file" "ask" []
    ToolRequirements.undef none none askMode rfl rfl rfl rfl

/-- A catalog refuting claim C3: one experimental identifier that is also a
tool of the edit group, so that a mode granting edit can reach it when the
experiments argument is absent. -/
def cexCatalog : ToolCatalog where
  TOOL_GROUPS := fun g =>
    if g == "edit" then ["apply_diff", "write_to_file", "insert_content", "search_and_replace"]
    else []
  ALWAYS_AVAILABLE_TOOLS := []
  EXPERIMENT_IDS := ["insert_content"]

/-- C3 counterexample: an experimental tool outside the always-available
set is allowed, not denied, when the experiments argument is absent,
because the source guards the experimental check behind the presence of the
experiments argument; mode `code` grants it through the edit group. -/
theorem c3_counterexample :
    cexCatalog.EXPERIMENT_IDS.contains "insert_content" = true ∧
    cexCatalog.ALWAYS_AVAILABLE_TOOLS.contains "insert_content" = false ∧
    isToolAllowedForMode cexCatalog "insert_content" "code" [] ToolRequirements.undef
      none none = ToolDecision.allowed :=
  ⟨rfl, rfl, rfl⟩

/-- C3 amended: an experimental tool outside the always-available set is
denied whenever the experiments argument is present and its entry for the
tool is absent or false, regardless of the mode and its groups; when the
experiments argument is absent the experimental gate is skipped and the
decision is the one the remaining rules produce. -/
theorem c3_amended_experimental_gate :
    (∀ (cat : ToolCatalog) (tool modeSlug : String) (customModes : List ModeConfig)
        (toolRequirements : ToolRequirements) (toolParams : Option ToolParams)
        (exps : List (String × Bool)),
      cat.ALWAYS_AVAILABLE_TOOLS.contains tool = false →
      cat.EXPERIMENT_IDS.contains tool = true →
      (lookupBool exps tool).getD false = false →
      isToolAllowedForMode cat tool modeSlug customModes toolRequirements toolParams
        (some exps) = ToolDecision.denied) ∧
    (∀ (cat : ToolCatalog) (tool modeSlug : String) (customModes : List ModeConfig)
        (toolRequirements : ToolRequirements) (toolParams : Option ToolParams),
      isToolAllowedForMode cat tool modeSlug customModes toolRequirements toolParams
          none =
        isToolAllowedForMode cat tool modeSlug customModes toolRequirements toolParams
          (some [(tool, true)])) := by
  constructor
  · intro cat tool modeSlug customModes toolRequirements toolParams exps hA hE hL
    simp at hE
    have hgate : experimentGateDenies cat tool (some exps) = true := by
      simp [experimentGateDenies, hE, hL]
    simp at hA
    simp [isToolAllowedForMode, hA, hgate]
  · intro cat tool modeSlug customModes toolRequirements toolParams
    have h1 : experimentGateDenies cat tool none = false := rfl
    have h2 : experimentGateDenies cat tool (some [(tool, true)]) = false := by
      simp [experimentGateDenies, lookupBool]
    simp [isToolAllowedForMode, h1, h2]

/-- C3 amended witness: with the experiments argument present and an empty
mapping, the experimental edit tool of the counterexample catalog is
denied. -/
theorem c3_amended_witness :
    isToolAllowedForMode cexCatalog "insert_content" "code" [] ToolRequirements.undef
      none (some []) = ToolDecision.denied :=
  c3_amended_experimental_gate.1 cexCatalog "insert_content" "code" []
    ToolRequirements.undef none [] rfl rfl rfl

/-- Reference merge, following the wording of the spec and claim C6: start
from the built-in ordered sequence; a custom mode whose slug matches an
existing entry replaces that entry at its index, one with a novel slug is
appended in supplied order. -/
def specMergeModes (customModes : List ModeConfig) : List ModeConfig :=
  customModes.foldl
    (fun acc cm =>
      match acc.findIdx? (fun m => m.slug == cm.slug) with
      | some i => acc.set i cm
      | none => acc ++ [cm])
    modes

/-- C6: `getAllModes` equals the reference merge for every custom-mode
sequence; the built-in constant is returned unchanged for an absent or
empty sequence (and, the operations being pure functions over an immutable
constant, repeated calls agree structurally); and a single override whose
slug matches an existing built-in yields a sequence of the same length as
the built-ins. -/
theorem c6_getAllModes_reference_merge :
    (∀ customModes : List ModeConfig,
      getAllModes (some customModes) = specMergeModes customModes) ∧
    (getAllModes none = modes ∧ getAllModes (some []) = modes) ∧
    (∀ cm : ModeConfig,
      (modes.findIdx? (fun m => m.slug == cm.slug)).isSome = true →
      (getAllModes (some [cm])).length = modes.length) := by
  refine ⟨?_, ⟨rfl, rfl⟩, ?_⟩
  · intro customModes
    cases customModes with
    | nil => rfl
    | cons c cs => rfl
  · intro cm h
    obtain ⟨i, hi⟩ := Option.isSome_iff_exists.mp h
    have : getAllModes (some [cm]) = modes.set i cm := by
      simp [getAllModes, hi]
    rw [this, List.length_set]

/-- A custom mode overriding the built-in `code` slug, used as a concrete
input for the merge claim. -/
def codeOverrideMode : ModeConfig where
  slug := "code"
  name := "Custom Code"
  groups := [GroupEntry.simple "read"]

/-- C6 witness: merging a single override of slug `code` keeps the sequence
at the built-in length. -/
theorem c6_witness :
    (getAllModes (some [codeOverrideMode])).length = modes.length :=
  c6_getAllModes_reference_merge.2.2 codeOverrideMode rfl

/-- C8: `getModeBySlug` returns a match from the custom modes first, falls
back to the built-ins when the custom modes contain no match, and seen
through `getModeConfig` the same lookup either succeeds with the found mode
or fails with the not-found error exactly when the lenient lookup returns
the absence value; on a slug known to neither set the lenient lookup
returns the absence value and the strict lookup the error. -/
theorem c8_lookup_semantics :
    (∀ (slug : String) (customModes : List ModeConfig) (m : ModeConfig),
      customModes.find? (fun x => x.slug == slug) = some m →
      getModeBySlug slug (some customModes) = some m) ∧
    (∀ (slug : String) (customModes : List ModeConfig),
      customModes.find? (fun x => x.slug == slug) = none →
      getModeBySlug slug (some customModes) = modes.find? (fun m => m.slug == slug)) ∧
    (∀ (slug : String) (customModes : Option (List ModeConfig)),
      getModeConfig slug customModes =
        match getModeBySlug slug customModes with
        | none => Except.error ("No mode found for slug: " ++ slug)
        | some m => Except.ok m) ∧
    (getModeBySlug "nonexistent" (some []) = none ∧
      getModeConfig "nonexistent" (some []) =
        Except.error "No mode found for slug: nonexistent") := by
  refine ⟨?_, ?_, ?_, ⟨rfl, rfl⟩⟩
  · intro slug customModes m h
    simp [getModeBySlug, h]
  · intro slug customModes h
    simp [getModeBySlug, h]
  · intro slug customModes
    rfl

/-- A custom mode shadowing the built-in `code` slug, used as a concrete
input for the lookup claim. -/
def shadowCodeMode : ModeConfig where
  slug := "code"
  name := "Shadow Code"
  groups := []

/-- C8 witness: with a custom mode of slug `code` supplied, the lookup
returns the custom mode, not the built-in one. -/
theorem c8_witness :
    getModeBySlug "code" (some [shadowCodeMode]) = some shadowCodeMode :=
  c8_lookup_semantics.1 "code" [shadowCodeMode] shadowCodeMode rfl

/-- A custom mode whose edit group carries a malformed file pattern, an
unterminated group, used as a concrete input for the malformed-pattern
claim. -/
def badRegexEditMode : ModeConfig where
  slug := "badregex"
  name := "Bad Regex"
  groups := [GroupEntry.scoped "edit" ⟨some "(", none⟩]

/-- C9: a malformed file pattern does not propagate a construction error:
the failure is caught and no path matches the pattern, so a genuine edit
attempt, one carrying a path and content, against an edit group scoped by
the malformed pattern is denied through the file-restriction error rather
than by a crash. -/
theorem c9_malformed_regex_fails_closed :
    (∀ p : String, doesFileMatchRegex p "(" = false) ∧
    (∀ p c : String, p.isEmpty = false → c.isEmpty = false →
      isToolAllowedForMode specCatalog "write_to_file" "badregex" [badRegexEditMode]
          ToolRequirements.undef (some ⟨some p, none, some c, none⟩) none =
        ToolDecision.restricted "Bad Regex" "(" none p) := by
  have hparse : ∀ p : String, doesFileMatchRegex p "(" = false := by
    intro p
    have h : parseAtoms ['('] = none := rfl
    simp [doesFileMatchRegex, h]
  refine ⟨hparse, ?_⟩
  intro p c hp hc
  have hstep : isToolAllowedForMode specCatalog "write_to_file" "badregex"
      [badRegexEditMode] ToolRequirements.undef (some ⟨some p, none, some c, none⟩) none =
      groupEntryDecision specCatalog "Bad Regex" "write_to_file"
        (some ⟨some p, none, some c, none⟩) (GroupEntry.scoped "edit" ⟨some "(", none⟩) := rfl
  rw [hstep]
  unfold groupEntryDecision
  simp [getGroupOptions, getGroupName, strTruthy, hp, hc, hparse p]
  decide

/-- C9 witness: the concrete genuine edit call on `app.ts` with content is
denied through the file-restriction error under the malformed pattern. -/
theorem c9_witness :
    isToolAllowedForMode specCatalog "write_to_file" "badregex" [badRegexEditMode]
        ToolRequirements.undef (some ⟨some "app.ts", none, some "x", none⟩) none =
      ToolDecision.restricted "Bad Regex" "(" none "app.ts" :=
  c9_malformed_regex_fails_closed.2 "app.ts" "x" rfl rfl

/-- C10: a call whose parameters carry a path but whose diff, content and
operations are all absent or empty is allowed whenever some group entry of
the resolved mode contains the tool, in particular when the first matching
entry is an edit group scoped by a pattern the path does not match: such a
call is treated as a non-edit call and bypasses the path restriction. -/
theorem c10_falsy_edit_fields_bypass_restriction
    (cat : ToolCatalog) (tool modeSlug : String) (customModes : List ModeConfig)
    (toolRequirements : ToolRequirements) (experiments : Option (List (String × Bool)))
    (mode : ModeConfig) (g : GroupEntry) (tp : ToolParams)
    (hAlways : cat.ALWAYS_AVAILABLE_TOOLS.contains tool = false)
    (hExp : experimentGateDenies cat tool experiments = false)
    (hReq : requirementDenies tool toolRequirements = false)
    (hMode : getModeBySlug modeSlug (some customModes) = some mode)
    (hFind : mode.groups.find?
      (fun e => (cat.TOOL_GROUPS (getGroupName e)).contains tool) = some g)
    (hDiff : strTruthy tp.diff = false)
    (hContent : strTruthy tp.content = false)
    (hOps : strTruthy tp.operations = false) :
    isToolAllowedForMode cat tool modeSlug customModes toolRequirements (some tp)
      experiments = ToolDecision.allowed := by
  simp at hAlways
  have hres := resolveGroups_eq_find cat mode.name tool (some tp) mode.groups
  rw [hFind] at hres
  have hdec : groupEntryDecision cat mode.name tool (some tp) g = ToolDecision.allowed := by
    unfold groupEntryDecision
    cases hopt : getGroupOptions g with
    | none => rfl
    | some opts =>
      simp [hDiff, hContent, hOps]
  simp [isToolAllowedForMode, hAlways, hExp, hReq, hMode, hres, hdec]

/-- C10 witness: in mode `architect`, a `write_to_file` call on `app.ts`,
which does not match the Markdown pattern, carrying content equal to the
empty string is allowed rather than restricted. -/
theorem c10_witness :
    isToolAllowedForMode specCatalog "write_to_file" "architect" []
      ToolRequirements.undef (some ⟨some "app.ts", none, some "", none⟩) none =
      ToolDecision.allowed :=
  c10_falsy_edit_fields_bypass_restriction specCatalog "write_to_file" "architect" []
    ToolRequirements.undef none architectMode
    (GroupEntry.scoped "edit" ⟨some "\\.md$", some "Markdown files only"⟩)
    ⟨some "app.ts", none, some "", none⟩ rfl rfl rfl rfl rfl rfl rfl rfl
